import Mathlib

/-!
Verification of the traditional poker hand engine
(src/poker/poker_game_traditional.py).

The engine itself (blind collection, the card-exchange round, discard
validation, and the hand lifecycle of play_hand) is translated directly
from the source file.  External collaborators that the repository keeps in
other modules (the GamePlayers roster, the Deck, the Scores container, the
message channel and the event dispatcher) are modelled from the spec; every
such definition carries a doc comment saying so.

Events dispatched to observers and messages sent to individual players are
recorded in a single ordered output trace, so that ordering facts such as
"the error notice precedes the elimination event" are directly statable.
-/

/-- Cards are opaque identifiers; the engine never inspects them. -/
abbrev Card := Nat

/-- Modelled from the spec: a Player of the GamePlayers roster collaborator
(not under src/): identity, money balance and an activity flag.  Money is
modelled as an integer since the engine only compares and subtracts it. -/
structure Player where
  id : Nat
  money : Int
  active : Bool
  deriving DecidableEq, Repr

/-- Modelled from the spec: the GamePlayers roster collaborator (not under
src/): an ordered seating list with an active view, dealer-relative
rotation, and elimination. -/
structure GamePlayers where
  players : List Player
  deriving DecidableEq, Repr

/-- Modelled from the spec: the active view of the roster. -/
def GamePlayers.activeList (gp : GamePlayers) : List Player :=
  gp.players.filter (fun p => p.active)

/-- Modelled from the spec: count_active of the roster. -/
def GamePlayers.countActive (gp : GamePlayers) : Nat :=
  gp.activeList.length

/-- Modelled from the spec: count_active_with_money of the roster. -/
def GamePlayers.countActiveWithMoney (gp : GamePlayers) : Nat :=
  (gp.players.filter (fun p => p.active && decide (0 < p.money))).length

/-- Modelled from the spec: eliminating a player clears the activity flag;
a dead player remains recorded but no longer participates. -/
def GamePlayers.remove (gp : GamePlayers) (i : Nat) : GamePlayers :=
  ⟨gp.players.map (fun p => if p.id = i then { p with active := false } else p)⟩

/-- Modelled from the spec: the dealer-relative rotation, starting
immediately after the dealer and skipping inactive players. -/
def GamePlayers.round (gp : GamePlayers) (dealerId : Nat) : List Player :=
  let k := (gp.players.findIdx (fun p => p.id == dealerId)) + 1
  ((gp.players.drop k) ++ (gp.players.take k)).filter (fun p => p.active)

/-- Modelled from the spec: reset clears per-hand player state such as fold
flags.  The Player model here has no separate per-hand flag (activity
already encodes in-hand participation), so reset is the identity. -/
def GamePlayers.reset (gp : GamePlayers) : GamePlayers := gp

/-- Python values that can appear as card references inside the cards field
of a change-cards message: integers, or some other hashable non-integer
value (tagged with a string so that distinct such values stay distinct
under set deduplication). -/
inductive PyVal where
  | int : Int → PyVal
  | nonInt : String → PyVal
  deriving DecidableEq, Repr

/-- The possible shapes of the cards field of a change-cards message, as a
Python value: a list of hashable elements, a non-iterable value, or an
iterable containing unhashable elements (both of the latter make
list(set(x)) raise TypeError). -/
inductive CardsField where
  | list : List PyVal → CardsField
  | nonIterable : CardsField
  | unhashable : CardsField
  deriving DecidableEq, Repr

/-- An inbound message: its message_type and, when present, its cards
field. -/
structure Message where
  message_type : String
  cards : Option CardsField
  deriving DecidableEq, Repr

/-- Modelled from the spec: the outcome of the blocking recv_message call
on a player channel: a message, a channel failure, or a timeout. -/
inductive RecvResult where
  | msg : Message → RecvResult
  | channelFail : String → RecvResult
  | timedOut : String → RecvResult
  deriving DecidableEq, Repr

/-- Modelled from the spec: the protocol exceptions caught by the
card-exchange round: ChannelError, MessageFormatError (attribute and
description) and MessageTimeout. -/
inductive PokerExc where
  | channelError : String → PokerExc
  | messageFormatError : String → String → PokerExc
  | messageTimeout : String → PokerExc
  deriving DecidableEq, Repr

/-- Modelled from the spec: the description string carried by a protocol
exception, used as the payload of the error notice (e.args[0]). -/
def PokerExc.description : PokerExc → String
  | .channelError s => s
  | .messageFormatError _ d => d
  | .messageTimeout s => s

namespace TraditionalPokerGame

/-- Timing constant of TraditionalPokerGame (source line 69). -/
def TIMEOUT_TOLERANCE : Nat := 2

/-- Timing constant of TraditionalPokerGame (source line 70). -/
def BET_TIMEOUT : Nat := 30

/-- Timing constant of TraditionalPokerGame (source line 71). -/
def CHANGE_CARDS_TIMEOUT : Nat := 30

/-- Pacing constant of TraditionalPokerGame (source line 73). -/
def WAIT_AFTER_CARDS_ASSIGNMENT : Nat := 0

/-- Pacing constant of TraditionalPokerGame (source line 74). -/
def WAIT_AFTER_BET : Nat := 2

/-- Pacing constant of TraditionalPokerGame (source line 75). -/
def WAIT_AFTER_WINNER_DESIGNATION : Nat := 5

/-- Pacing constant of TraditionalPokerGame (source line 76). -/
def WAIT_AFTER_HAND : Nat := 0

/-- Pacing constant of TraditionalPokerGame (source line 77). -/
def WAIT_AFTER_CARDS_CHANGE : Nat := 0

end TraditionalPokerGame

/-- A message sent directly to one player over its channel: either the
error notice sent on a protocol failure (message_type "error") or the
private hand update pushed after a successful exchange. -/
inductive PlayerMsg where
  | errorNotice : String → PlayerMsg
  | handUpdate : List Card → PlayerMsg
  deriving DecidableEq, Repr

/-- The message_type field of a direct player message; the error notice is
sent as a dictionary with message_type "error" (source line 120). -/
def PlayerMsg.messageType : PlayerMsg → String
  | .errorNotice _ => "error"
  | .handUpdate _ => "set-cards"

/-- Dispatcher events raised by the engine.  The showdown and
winnerDesignation markers stand for the base-class calls _showdown and
_detect_winners made at the end of play_hand. -/
inductive GameEvent where
  | newGame : Nat → Nat → List Nat → List (Nat × Int) → GameEvent
  | gameOver : GameEvent
  | playerAction : Nat → Nat → Nat → GameEvent
  | changeCards : Nat → Nat → GameEvent
  | deadPlayer : Nat → GameEvent
  | potsUpdate : GameEvent
  | showdown : GameEvent
  | winnerDesignation : GameEvent
  deriving DecidableEq, Repr

/-- One entry of the ordered output trace: a dispatcher event, a direct
message to one player, or the blocking receive call on a player channel
together with the deadline enforced on it. -/
inductive Output where
  | ev : GameEvent → Output
  | send : Nat → PlayerMsg → Output
  | recvCall : Nat → Nat → Output
  deriving DecidableEq, Repr

/-- The mutable state threaded through one hand: the roster, the deck
(modelled from the spec as a single ordered pool: pop_cards takes from the
front, push_cards returns to the back), the scores mapping from player id
to hand, the pot contributions, and the output trace. -/
structure EngineState where
  players : GamePlayers
  deck : List Card
  scores : Nat → List Card
  pots : List (Nat × Int)
  outputs : List Output

/-- Python list indexing semantics for a card reference: a non-integer
reference raises TypeError (None here); a negative integer counts from the
end of the list; an index outside the valid range raises IndexError (None
here). -/
def pyIndex (xs : List Card) (v : PyVal) : Option Card :=
  match v with
  | PyVal.nonInt _ => none
  | PyVal.int i =>
    let j : Int := if i < 0 then i + xs.length else i
    if 0 ≤ j then xs.get? j.toNat else none

/-- The list comprehension of source line 151: resolve every reference in
order, failing as soon as one reference fails to resolve. -/
def resolveCards (cards : List Card) : List PyVal → Option (List Card)
  | [] => some []
  | k :: ks =>
    match pyIndex cards k, resolveCards cards ks with
    | some c, some cs => some (c :: cs)
    | _, _ => none

/-- Translation of _get_player_discard (source lines 135-154): receive the
message, validate its type and its cards field, deduplicate the references
via set, reject more than 4, and resolve each reference by Python list
indexing into the current hand, converting TypeError and IndexError into a
MessageFormatError with attribute cards. -/
def get_player_discard (playerCards : List Card) (recv : RecvResult) :
    Except PokerExc (List Card) :=
  match recv with
  | .channelFail s => Except.error (PokerExc.channelError s)
  | .timedOut s => Except.error (PokerExc.messageTimeout s)
  | .msg m =>
    if m.message_type = "change-cards" then
      match m.cards with
      | none => Except.error (PokerExc.messageFormatError "cards" "Attribute is missing")
      | some CardsField.nonIterable =>
          Except.error (PokerExc.messageFormatError "cards" "Invalid list of cards")
      | some CardsField.unhashable =>
          Except.error (PokerExc.messageFormatError "cards" "Invalid list of cards")
      | some (CardsField.list xs) =>
          if 4 < xs.dedup.length then
            Except.error (PokerExc.messageFormatError "cards" "Maximum number of cards exceeded")
          else
            match resolveCards playerCards xs.dedup with
            | some ds => Except.ok ds
            | none => Except.error (PokerExc.messageFormatError "cards" "Invalid list of cards")
    else
      Except.error (PokerExc.messageFormatError "message_type" "Invalid message type")

/-- Translation of one iteration of the loop of _change_cards_round
(source lines 110-133): advertise the action with deadline now + 30,
block on the reply until that deadline plus the 2 unit tolerance, and
either apply the exchange (pop replacements, push the discard, recompute
the hand as kept plus new, push the hand privately, emit the change-cards
event) or, on a protocol failure, send the error notice, emit the
dead-player event and eliminate the player.  The turn start time of each
player is supplied by the times function; the reply by the inputs
function. -/
def changeCardsTurn (inputs : Nat → RecvResult) (times : Nat → Nat)
    (st : EngineState) (p : Player) : EngineState :=
  let timeoutEpoch := times p.id + TraditionalPokerGame.CHANGE_CARDS_TIMEOUT
  let pre : List Output :=
    st.outputs ++
      [Output.ev (GameEvent.playerAction p.id TraditionalPokerGame.CHANGE_CARDS_TIMEOUT timeoutEpoch),
       Output.recvCall p.id (timeoutEpoch + TraditionalPokerGame.TIMEOUT_TOLERANCE)]
  match get_player_discard (st.scores p.id) (inputs p.id) with
  | Except.error e =>
      { st with
        players := st.players.remove p.id,
        outputs := pre ++
          [Output.send p.id (PlayerMsg.errorNotice e.description),
           Output.ev (GameEvent.deadPlayer p.id)] }
  | Except.ok ds =>
      if ds.isEmpty then
        { st with outputs := pre ++ [Output.ev (GameEvent.changeCards p.id 0)] }
      else
        let newCards := st.deck.take ds.length
        let kept := (st.scores p.id).filter (fun c => decide (c ∉ ds))
        let cards := kept ++ newCards
        { st with
          deck := st.deck.drop ds.length ++ ds,
          scores := fun j => if j = p.id then cards else st.scores j,
          outputs := pre ++
            [Output.send p.id (PlayerMsg.handUpdate cards),
             Output.ev (GameEvent.changeCards p.id ds.length)] }

/-- The loop of _change_cards_round over a given list of players. -/
def changeCardsRoundAux (inputs : Nat → RecvResult) (times : Nat → Nat) :
    List Player → EngineState → EngineState
  | [], st => st
  | p :: rest, st => changeCardsRoundAux inputs times rest (changeCardsTurn inputs times st p)

/-- Translation of _change_cards_round (source lines 109-133): run one
turn for every active player in dealer-relative rotation order. -/
def change_cards_round (inputs : Nat → RecvResult) (times : Nat → Nat)
    (dealerId : Nat) (st : EngineState) : EngineState :=
  changeCardsRoundAux inputs times (st.players.round dealerId) st

/-- The fatal error raised when fewer than two players remain after blind
collection (GameError of source line 95). -/
inductive GameError where
  | gameError : String → GameError
  deriving DecidableEq, Repr

instance {ε α : Type} [DecidableEq ε] [DecidableEq α] : DecidableEq (Except ε α) := fun a b =>
  match a, b with
  | Except.error e, Except.error f =>
    if h : e = f then isTrue (by rw [h]) else isFalse (by intro hh; cases hh; exact h rfl)
  | Except.ok x, Except.ok y =>
    if h : x = y then isTrue (by rw [h]) else isFalse (by intro hh; cases hh; exact h rfl)
  | Except.error _, Except.ok _ => isFalse (by intro hh; cases hh)
  | Except.ok _, Except.error _ => isFalse (by intro hh; cases hh)

/-- The outcome of _collect_blinds: the roster and trace after the
eliminations, and either the bets mapping or the fatal GameError. -/
structure BlindsResult where
  players : GamePlayers
  outputs : List Output
  bets : Except GameError (List (Nat × Int))
  deriving DecidableEq, Repr

/-- One iteration of the elimination loop of _collect_blinds (source lines
89-92): a player whose money is below the blind gets a dead-player event
and is removed. -/
def blindsStep (blind : Int) (acc : GamePlayers × List Output) (p : Player) :
    GamePlayers × List Output :=
  if p.money < blind then
    (acc.1.remove p.id, acc.2 ++ [Output.ev (GameEvent.deadPlayer p.id)])
  else acc

/-- Translation of _collect_blinds (source lines 87-103): eliminate every
active player with money below the blind, fail with GameError if fewer
than two active players remain, otherwise debit the blind from every
remaining active player and return the bets mapping keyed by player id. -/
def collect_blinds (blind : Int) (gp : GamePlayers) (outs : List Output) : BlindsResult :=
  let acc := gp.activeList.foldl (blindsStep blind) (gp, outs)
  if acc.1.countActive < 2 then
    { players := acc.1, outputs := acc.2,
      bets := Except.error (GameError.gameError "Not enough players") }
  else
    { players := ⟨acc.1.players.map (fun p =>
        if p.active then { p with money := p.money - blind } else p)⟩,
      outputs := acc.2,
      bets := Except.ok (acc.1.activeList.map (fun p => (p.id, blind))) }

/-- Modelled from the spec: the two betting rounds are delegated entirely
to the external bet-round collaborator; each is an arbitrary transformer
of the roster (folds deactivate players, bets move money). -/
structure Collaborators where
  betRound1 : GamePlayers → GamePlayers
  betRound2 : GamePlayers → GamePlayers

/-- Modelled from the spec: the base-class _assign_cards deals a fixed
number of cards from the deck to each active player in rotation order,
pushing each hand to its player privately. -/
def assign_cards (n : Nat) (dealerId : Nat) (st : EngineState) : EngineState :=
  (st.players.round dealerId).foldl
    (fun s p =>
      { s with
        deck := s.deck.drop n,
        scores := fun j => if j = p.id then s.deck.take n else s.scores j,
        outputs := s.outputs ++ [Output.send p.id (PlayerMsg.handUpdate (s.deck.take n))] })
    st

/-- Translation of the try block of play_hand (source lines 179-201): deal,
first bet round, card exchange, final bet round, with the early-termination
checkpoints in between.  Each raise of EndGameException is modelled as
returning the state at the raise point, since the except handler runs next
in every case. -/
def handBody (C : Collaborators) (inputs : Nat → RecvResult) (times : Nat → Nat)
    (dealerId : Nat) (st : EngineState) : EngineState :=
  let s1 := assign_cards 5 dealerId st
  if s1.players.countActive < 2 then s1 else
  let s2 := { s1 with players := C.betRound1 s1.players }
  if s2.players.countActive < 2 then s2 else
  let s3 := change_cards_round inputs times dealerId s2
  if s3.players.countActive < 2 then s3 else
  if s3.players.countActiveWithMoney < 2 then s3 else
  { s3 with players := C.betRound2 s3.players }

/-- Translation of play_hand lines 166-177: after the blinds succeed, the
engine holds a fresh deck and empty scores, seeds the pots with the blind
bets, and has emitted the new-game and pots-update events after the dead
player events from blind collection. -/
def afterBlinds (gameId dealerId : Nat) (deck0 : List Card) (br : BlindsResult)
    (blindBets : List (Nat × Int)) : EngineState :=
  { players := br.players,
    deck := deck0,
    scores := fun _ => [],
    pots := blindBets,
    outputs := br.outputs ++
      [Output.ev (GameEvent.newGame gameId dealerId
          (br.players.activeList.map (fun p => p.id)) blindBets),
       Output.ev GameEvent.potsUpdate] }

/-- Translation of the except handler and the tail of play_hand (source
lines 203-209): reveal the showdown only when more than one player remains
active, always detect winners over the pots exactly once, and finally emit
the game-over event. -/
def finishHand (stB : EngineState) : EngineState :=
  let stS := if 1 < stB.players.countActive
             then { stB with outputs := stB.outputs ++ [Output.ev GameEvent.showdown] }
             else stB
  { stS with outputs := stS.outputs ++
      [Output.ev GameEvent.winnerDesignation, Output.ev GameEvent.gameOver] }

/-- Translation of play_hand (source lines 160-209): reset the roster,
collect the blinds (a GameError aborts the hand and propagates), emit the
new-game and pots-update events, run the phases of the try block, then in
the except handler reveal the showdown only when more than one player is
active, detect the winners over the pots, and finally emit game-over. -/
def play_hand (C : Collaborators) (blind : Int) (inputs : Nat → RecvResult)
    (times : Nat → Nat) (gameId dealerId : Nat) (gp : GamePlayers) (deck0 : List Card) :
    Except GameError EngineState :=
  let br := collect_blinds blind gp.reset []
  match br.bets with
  | Except.error e => Except.error e
  | Except.ok blindBets =>
      Except.ok (finishHand (handBody C inputs times dealerId
        (afterBlinds gameId dealerId deck0 br blindBets)))

/-- Whether an Except value is a success. -/
def exceptOk {ε α : Type} : Except ε α → Bool
  | Except.ok _ => true
  | Except.error _ => false

/-- The output trace of a hand result (empty on an aborted hand). -/
def resultOutputs : Except GameError EngineState → List Output
  | Except.ok st => st.outputs
  | Except.error _ => []

/-- The active player count of a hand result (zero on an aborted hand). -/
def resultActive : Except GameError EngineState → Nat
  | Except.ok st => st.players.countActive
  | Except.error _ => 0

/-- The number of occurrences of one entry in an output trace. -/
def countOut (l : List Output) (x : Output) : Nat :=
  l.countP (fun o => decide (o = x))

/-- An output entry that none of the ordinary phases can produce: the
showdown and payout markers and the game-over event are appended only by
the tail of play_hand itself. -/
def benignOut (o : Output) : Prop :=
  o ≠ Output.ev GameEvent.showdown ∧ o ≠ Output.ev GameEvent.winnerDesignation ∧
    o ≠ Output.ev GameEvent.gameOver

theorem changeCardsTurn_outputs_shape (inputs : Nat → RecvResult) (times : Nat → Nat)
    (st : EngineState) (p : Player) :
    ∃ d, (changeCardsTurn inputs times st p).outputs
        = st.outputs ++
          [Output.ev (GameEvent.playerAction p.id TraditionalPokerGame.CHANGE_CARDS_TIMEOUT
              (times p.id + TraditionalPokerGame.CHANGE_CARDS_TIMEOUT)),
           Output.recvCall p.id (times p.id + TraditionalPokerGame.CHANGE_CARDS_TIMEOUT
              + TraditionalPokerGame.TIMEOUT_TOLERANCE)] ++ d
      ∧ ∀ o ∈ d, benignOut o := by
  cases hg : get_player_discard (st.scores p.id) (inputs p.id) with
  | error e =>
      refine ⟨[Output.send p.id (PlayerMsg.errorNotice e.description),
               Output.ev (GameEvent.deadPlayer p.id)], ?_, ?_⟩
      · simp [changeCardsTurn, hg]
      · intro o ho
        simp only [List.mem_cons, List.mem_singleton, List.not_mem_nil] at ho
        rcases ho with rfl | rfl | h
        · simp [benignOut]
        · simp [benignOut]
        · cases h
  | ok ds =>
      by_cases he : ds.isEmpty
      · refine ⟨[Output.ev (GameEvent.changeCards p.id 0)], ?_, ?_⟩
        · simp [changeCardsTurn, hg, he]
        · intro o ho
          simp only [List.mem_singleton] at ho
          subst ho
          simp [benignOut]
      · refine ⟨[Output.send p.id (PlayerMsg.handUpdate
            (((st.scores p.id).filter (fun c => decide (c ∉ ds))) ++ st.deck.take ds.length)),
          Output.ev (GameEvent.changeCards p.id ds.length)], ?_, ?_⟩
        · simp [changeCardsTurn, hg, he]
        · intro o ho
          simp only [List.mem_cons, List.mem_singleton, List.not_mem_nil] at ho
          rcases ho with rfl | rfl | h
          · simp [benignOut]
          · simp [benignOut]
          · cases h

theorem changeCardsTurn_outputs_benign (inputs : Nat → RecvResult) (times : Nat → Nat)
    (st : EngineState) (p : Player) :
    ∃ d, (changeCardsTurn inputs times st p).outputs = st.outputs ++ d ∧ ∀ o ∈ d, benignOut o := by
  obtain ⟨d, hd, hb⟩ := changeCardsTurn_outputs_shape inputs times st p
  refine ⟨[Output.ev (GameEvent.playerAction p.id TraditionalPokerGame.CHANGE_CARDS_TIMEOUT
        (times p.id + TraditionalPokerGame.CHANGE_CARDS_TIMEOUT)),
      Output.recvCall p.id (times p.id + TraditionalPokerGame.CHANGE_CARDS_TIMEOUT
        + TraditionalPokerGame.TIMEOUT_TOLERANCE)] ++ d, ?_, ?_⟩
  · rw [hd, List.append_assoc]
  intro o ho
  rcases List.mem_append.1 ho with h | h
  · simp only [List.mem_cons, List.mem_singleton, List.not_mem_nil] at h
    rcases h with rfl | rfl | h
    · simp [benignOut]
    · simp [benignOut]
    · cases h
  · exact hb o h

theorem changeCardsRoundAux_outputs_benign (inputs : Nat → RecvResult) (times : Nat → Nat)
    (l : List Player) (st : EngineState) :
    ∃ d, (changeCardsRoundAux inputs times l st).outputs = st.outputs ++ d ∧
      ∀ o ∈ d, benignOut o := by
  induction l generalizing st with
  | nil => exact ⟨[], by simp [changeCardsRoundAux], by simp⟩
  | cons p rest ih =>
    obtain ⟨d1, h1, hb1⟩ := changeCardsTurn_outputs_benign inputs times st p
    obtain ⟨d2, h2, hb2⟩ := ih (changeCardsTurn inputs times st p)
    refine ⟨d1 ++ d2, ?_, ?_⟩
    · show (changeCardsRoundAux inputs times rest (changeCardsTurn inputs times st p)).outputs = _
      rw [h2, h1, List.append_assoc]
    · intro o ho
      rcases List.mem_append.1 ho with h | h
      exacts [hb1 o h, hb2 o h]

theorem change_cards_round_outputs_benign (inputs : Nat → RecvResult) (times : Nat → Nat)
    (dealerId : Nat) (st : EngineState) :
    ∃ d, (change_cards_round inputs times dealerId st).outputs = st.outputs ++ d ∧
      ∀ o ∈ d, benignOut o :=
  changeCardsRoundAux_outputs_benign inputs times (st.players.round dealerId) st

/-- A sample active player used by the concrete witnesses. -/
def exPlayer : Player := { id := 1, money := 100, active := true }

/-- A second sample active player used by the concrete witnesses. -/
def exPlayer2 : Player := { id := 2, money := 100, active := true }

/-- Sample scores: player 1 holds the dealt hand [10, 20, 30, 40, 50]. -/
def exScores : Nat → List Card := fun j => if j = 1 then [10, 20, 30, 40, 50] else [60, 70, 80, 90, 110]

/-- Sample engine state entering the card-exchange round. -/
def exState : EngineState :=
  { players := { players := [exPlayer, exPlayer2] },
    deck := [200, 201, 202, 203, 204, 205],
    scores := exScores,
    pots := [],
    outputs := [] }

/-- Sample turn start times. -/
def exTimes : Nat → Nat := fun _ => 1000

/-- Inputs where every player times out. -/
def exTimeoutInputs : Nat → RecvResult := fun _ => RecvResult.timedOut "Timed out"

/-- Inputs where every player sends a well-formed empty discard. -/
def exEmptyInputs : Nat → RecvResult :=
  fun _ => RecvResult.msg { message_type := "change-cards", cards := some (CardsField.list []) }

/-- Inputs where every player names six distinct card references. -/
def exSixRefInputs : Nat → RecvResult :=
  fun _ => RecvResult.msg
    { message_type := "change-cards",
      cards := some (CardsField.list
        [PyVal.int 0, PyVal.int 1, PyVal.int 2, PyVal.int 3, PyVal.int 4, PyVal.int 5]) }

/-- Inputs where every player discards references 0 and -5, two distinct
references that resolve to the same card of a 5-card hand. -/
def dupDiscardInputs : Nat → RecvResult :=
  fun _ => RecvResult.msg
    { message_type := "change-cards",
      cards := some (CardsField.list [PyVal.int 0, PyVal.int (-5)]) }

/-- C8: in every card-exchange turn the player-action event advertises the
deadline turn-start + CHANGE_CARDS_TIMEOUT (30), while the blocking
receive is given that advertised deadline plus TIMEOUT_TOLERANCE (2); the
tolerance is applied only to the receive deadline, so the enforced
deadline exceeds the advertised one by exactly 2 time units. -/
theorem change_cards_deadline_asymmetry (inputs : Nat → RecvResult) (times : Nat → Nat)
    (st : EngineState) (p : Player) :
    TraditionalPokerGame.CHANGE_CARDS_TIMEOUT = 30 ∧
    TraditionalPokerGame.TIMEOUT_TOLERANCE = 2 ∧
    ∃ d, (changeCardsTurn inputs times st p).outputs
        = st.outputs ++
          [Output.ev (GameEvent.playerAction p.id TraditionalPokerGame.CHANGE_CARDS_TIMEOUT
              (times p.id + TraditionalPokerGame.CHANGE_CARDS_TIMEOUT)),
           Output.recvCall p.id ((times p.id + TraditionalPokerGame.CHANGE_CARDS_TIMEOUT)
              + TraditionalPokerGame.TIMEOUT_TOLERANCE)] ++ d := by
  refine ⟨rfl, rfl, ?_⟩
  obtain ⟨d, hd, _⟩ := changeCardsTurn_outputs_shape inputs times st p
  exact ⟨d, hd⟩

/-- C1: when a player's turn in the card-exchange round fails with a
channel failure, a malformed message or a timeout, the engine sends that
player an error notice (a direct message whose message_type is "error"),
then emits the dead-player event, removes the player from the roster, and
continues the loop with the remaining players; the notice is strictly
earlier in the trace than the dead-player event, and the round never
aborts. -/
theorem change_cards_failure_isolated (inputs : Nat → RecvResult) (times : Nat → Nat)
    (st : EngineState) (p : Player) (rest : List Player) (e : PokerExc)
    (h : get_player_discard (st.scores p.id) (inputs p.id) = Except.error e) :
    PlayerMsg.messageType (PlayerMsg.errorNotice e.description) = "error" ∧
    changeCardsRoundAux inputs times (p :: rest) st =
      changeCardsRoundAux inputs times rest
        { st with
          players := st.players.remove p.id,
          outputs := st.outputs ++
            [Output.ev (GameEvent.playerAction p.id TraditionalPokerGame.CHANGE_CARDS_TIMEOUT
                (times p.id + TraditionalPokerGame.CHANGE_CARDS_TIMEOUT)),
             Output.recvCall p.id (times p.id + TraditionalPokerGame.CHANGE_CARDS_TIMEOUT
                + TraditionalPokerGame.TIMEOUT_TOLERANCE),
             Output.send p.id (PlayerMsg.errorNotice e.description),
             Output.ev (GameEvent.deadPlayer p.id)] } := by
  refine ⟨rfl, ?_⟩
  show changeCardsRoundAux inputs times rest (changeCardsTurn inputs times st p) = _
  congr 1
  simp [changeCardsTurn, h]

/-- Witness for C1 at a concrete state: player 1 times out in a round with
players 1 and 2. -/
theorem change_cards_failure_isolated_witness :
    get_player_discard (exState.scores exPlayer.id) (exTimeoutInputs exPlayer.id)
        = Except.error (PokerExc.messageTimeout "Timed out") ∧
    (PlayerMsg.messageType (PlayerMsg.errorNotice
        (PokerExc.messageTimeout "Timed out").description) = "error" ∧
      changeCardsRoundAux exTimeoutInputs exTimes [exPlayer, exPlayer2] exState =
        changeCardsRoundAux exTimeoutInputs exTimes [exPlayer2]
          { exState with
            players := exState.players.remove exPlayer.id,
            outputs := exState.outputs ++
              [Output.ev (GameEvent.playerAction exPlayer.id
                  TraditionalPokerGame.CHANGE_CARDS_TIMEOUT
                  (exTimes exPlayer.id + TraditionalPokerGame.CHANGE_CARDS_TIMEOUT)),
               Output.recvCall exPlayer.id (exTimes exPlayer.id
                  + TraditionalPokerGame.CHANGE_CARDS_TIMEOUT
                  + TraditionalPokerGame.TIMEOUT_TOLERANCE),
               Output.send exPlayer.id (PlayerMsg.errorNotice
                  (PokerExc.messageTimeout "Timed out").description),
               Output.ev (GameEvent.deadPlayer exPlayer.id)] }) :=
  ⟨rfl, change_cards_failure_isolated exTimeoutInputs exTimes exState exPlayer [exPlayer2]
      (PokerExc.messageTimeout "Timed out") rfl⟩

/-- C7: a turn whose validated discard list is empty leaves the whole
engine state unchanged except for appending the player-action event, the
receive record and a change-cards event with count 0; in particular the
deck, the scores and the roster are untouched and no private message is
sent to the player. -/
theorem zero_discard_frame (inputs : Nat → RecvResult) (times : Nat → Nat)
    (st : EngineState) (p : Player)
    (h : get_player_discard (st.scores p.id) (inputs p.id) = Except.ok []) :
    changeCardsTurn inputs times st p =
      { st with outputs := st.outputs ++
          [Output.ev (GameEvent.playerAction p.id TraditionalPokerGame.CHANGE_CARDS_TIMEOUT
              (times p.id + TraditionalPokerGame.CHANGE_CARDS_TIMEOUT)),
           Output.recvCall p.id (times p.id + TraditionalPokerGame.CHANGE_CARDS_TIMEOUT
              + TraditionalPokerGame.TIMEOUT_TOLERANCE),
           Output.ev (GameEvent.changeCards p.id 0)] } := by
  simp [changeCardsTurn, h]

/-- Witness for C7 at a concrete state: player 1 sends an empty discard. -/
theorem zero_discard_frame_witness :
    get_player_discard (exState.scores exPlayer.id) (exEmptyInputs exPlayer.id)
        = Except.ok [] ∧
    changeCardsTurn exEmptyInputs exTimes exState exPlayer =
      { exState with outputs := exState.outputs ++
          [Output.ev (GameEvent.playerAction exPlayer.id
              TraditionalPokerGame.CHANGE_CARDS_TIMEOUT
              (exTimes exPlayer.id + TraditionalPokerGame.CHANGE_CARDS_TIMEOUT)),
           Output.recvCall exPlayer.id (exTimes exPlayer.id
              + TraditionalPokerGame.CHANGE_CARDS_TIMEOUT
              + TraditionalPokerGame.TIMEOUT_TOLERANCE),
           Output.ev (GameEvent.changeCards exPlayer.id 0)] } :=
  ⟨rfl, zero_discard_frame exEmptyInputs exTimes exState exPlayer rfl⟩

/-- C5: a change-cards message whose references still number more than 4
after set deduplication is rejected with the typed format error (attribute
cards, description Maximum number of cards exceeded), and the rejected
turn leaves both the deck and the scores mapping (every hand) unchanged. -/
theorem max_cards_rejection_pure (inputs : Nat → RecvResult) (times : Nat → Nat)
    (st : EngineState) (p : Player) (xs : List PyVal)
    (hin : inputs p.id = RecvResult.msg
      { message_type := "change-cards", cards := some (CardsField.list xs) })
    (hlen : 4 < xs.dedup.length) :
    get_player_discard (st.scores p.id) (inputs p.id)
      = Except.error (PokerExc.messageFormatError "cards" "Maximum number of cards exceeded") ∧
    (changeCardsTurn inputs times st p).deck = st.deck ∧
    (changeCardsTurn inputs times st p).scores = st.scores := by
  have hg : get_player_discard (st.scores p.id) (inputs p.id)
      = Except.error (PokerExc.messageFormatError "cards" "Maximum number of cards exceeded") := by
    rw [hin]
    simp [get_player_discard, hlen]
  exact ⟨hg, by simp [changeCardsTurn, hg], by simp [changeCardsTurn, hg]⟩

/-- Witness for C5 at a concrete state: player 1 names six distinct
references. -/
theorem max_cards_rejection_pure_witness :
    (exSixRefInputs exPlayer.id = RecvResult.msg
      { message_type := "change-cards",
        cards := some (CardsField.list
          [PyVal.int 0, PyVal.int 1, PyVal.int 2, PyVal.int 3, PyVal.int 4, PyVal.int 5]) } ∧
      4 < ([PyVal.int 0, PyVal.int 1, PyVal.int 2, PyVal.int 3, PyVal.int 4,
        PyVal.int 5] : List PyVal).dedup.length) ∧
    (get_player_discard (exState.scores exPlayer.id) (exSixRefInputs exPlayer.id)
        = Except.error (PokerExc.messageFormatError "cards" "Maximum number of cards exceeded") ∧
      (changeCardsTurn exSixRefInputs exTimes exState exPlayer).deck = exState.deck ∧
      (changeCardsTurn exSixRefInputs exTimes exState exPlayer).scores = exState.scores) :=
  ⟨⟨rfl, by decide⟩,
    max_cards_rejection_pure exSixRefInputs exTimes exState exPlayer
      [PyVal.int 0, PyVal.int 1, PyVal.int 2, PyVal.int 3, PyVal.int 4, PyVal.int 5]
      rfl (by decide)⟩

/-- C9: card references are resolved by Python list indexing, so a
negative reference in -5..-1 is accepted and resolves to a card counted
from the end of the 5-card hand; consequently the references 0 and -5 both
survive set deduplication and the validated discard list contains the same
card twice. -/
theorem negative_reference_aliasing :
    (∀ (cards : List Card) (i : Int), cards.length = 5 → -5 ≤ i → i < 0 →
        pyIndex cards (PyVal.int i) = cards.get? (i + 5).toNat) ∧
    get_player_discard [10, 20, 30, 40, 50]
        (RecvResult.msg
          { message_type := "change-cards",
            cards := some (CardsField.list [PyVal.int 0, PyVal.int (-5)]) })
      = Except.ok [10, 10] := by
  constructor
  · intro cards i hlen h1 h2
    have hcast : (cards.length : Int) = 5 := by rw [hlen]; norm_num
    have h0 : (0 : Int) ≤ i + 5 := by omega
    simp only [pyIndex, hcast, if_pos h2, if_pos h0]
  · rfl

/-- Witness for C9: reference -5 into the hand [10, 20, 30, 40, 50]
resolves to the first card, 10. -/
theorem negative_reference_aliasing_witness :
    (([10, 20, 30, 40, 50] : List Card).length = 5 ∧ (-5 : Int) ≤ -5 ∧ (-5 : Int) < 0) ∧
    pyIndex [10, 20, 30, 40, 50] (PyVal.int (-5))
        = ([10, 20, 30, 40, 50] : List Card).get? ((-5 : Int) + 5).toNat ∧
    get_player_discard [10, 20, 30, 40, 50]
        (RecvResult.msg
          { message_type := "change-cards",
            cards := some (CardsField.list [PyVal.int 0, PyVal.int (-5)]) })
      = Except.ok [10, 10] :=
  ⟨⟨rfl, by decide, by decide⟩,
    negative_reference_aliasing.1 [10, 20, 30, 40, 50] (-5) rfl (by decide) (by decide),
    negative_reference_aliasing.2⟩

theorem resolveCards_eq_none (playerCards : List Card) :
    ∀ (xs : List PyVal) (v : PyVal), v ∈ xs → pyIndex playerCards v = none →
      resolveCards playerCards xs = none := by
  intro xs
  induction xs with
  | nil => intro v hv; cases hv
  | cons k ks ih =>
    intro v hv hnone
    rcases List.mem_cons.1 hv with rfl | hv
    · simp [resolveCards, hnone]
    · have h2 := ih v hv hnone
      cases h1 : pyIndex playerCards k <;> simp [resolveCards, h1, h2]

/-- C10: for a change-cards message carrying a cards field, discard
validation is total: it yields either a discard list or a typed
MessageFormatError; a non-iterable value, an unhashable element, or a
failing reference (non-integer or out of range, which make resolution
fail) is converted into the format error with attribute cards and
description Invalid list of cards. -/
theorem cards_validation_total (playerCards : List Card) (m : Message)
    (hmt : m.message_type = "change-cards") :
    (∀ cf, m.cards = some cf →
       (∃ ds, get_player_discard playerCards (RecvResult.msg m) = Except.ok ds) ∨
       (∃ a s, get_player_discard playerCards (RecvResult.msg m)
           = Except.error (PokerExc.messageFormatError a s))) ∧
    (m.cards = some CardsField.nonIterable →
       get_player_discard playerCards (RecvResult.msg m)
         = Except.error (PokerExc.messageFormatError "cards" "Invalid list of cards")) ∧
    (m.cards = some CardsField.unhashable →
       get_player_discard playerCards (RecvResult.msg m)
         = Except.error (PokerExc.messageFormatError "cards" "Invalid list of cards")) ∧
    (∀ xs, m.cards = some (CardsField.list xs) → ¬ 4 < xs.dedup.length →
       resolveCards playerCards xs.dedup = none →
       get_player_discard playerCards (RecvResult.msg m)
         = Except.error (PokerExc.messageFormatError "cards" "Invalid list of cards")) ∧
    (∀ (xs : List PyVal) (v : PyVal), v ∈ xs → pyIndex playerCards v = none →
       resolveCards playerCards xs = none) := by
  refine ⟨?_, ?_, ?_, ?_, resolveCards_eq_none playerCards⟩
  · intro cf hcf
    cases cf with
    | nonIterable =>
        right
        exact ⟨"cards", "Invalid list of cards", by simp [get_player_discard, hmt, hcf]⟩
    | unhashable =>
        right
        exact ⟨"cards", "Invalid list of cards", by simp [get_player_discard, hmt, hcf]⟩
    | list xs =>
        by_cases hl : 4 < xs.dedup.length
        · right
          exact ⟨"cards", "Maximum number of cards exceeded",
            by simp [get_player_discard, hmt, hcf, hl]⟩
        · cases hr : resolveCards playerCards xs.dedup with
          | some ds =>
              left
              exact ⟨ds, by simp [get_player_discard, hmt, hcf, hl, hr]⟩
          | none =>
              right
              exact ⟨"cards", "Invalid list of cards",
                by simp [get_player_discard, hmt, hcf, hl, hr]⟩
  · intro hcf
    simp [get_player_discard, hmt, hcf]
  · intro hcf
    simp [get_player_discard, hmt, hcf]
  · intro xs hcf hl hr
    simp [get_player_discard, hmt, hcf, hl, hr]

/-- Witness for C10: an out-of-range reference is converted into the
typed format error Invalid list of cards. -/
theorem cards_validation_total_witness :
    (Message.mk "change-cards" (some (CardsField.list [PyVal.int 99]))).message_type
        = "change-cards" ∧
    get_player_discard [1, 2, 3, 4, 5]
        (RecvResult.msg (Message.mk "change-cards" (some (CardsField.list [PyVal.int 99]))))
      = Except.error (PokerExc.messageFormatError "cards" "Invalid list of cards") :=
  ⟨rfl,
    (cards_validation_total [1, 2, 3, 4, 5]
        (Message.mk "change-cards" (some (CardsField.list [PyVal.int 99]))) rfl).2.2.2.1
      [PyVal.int 99] rfl (by decide) (by decide)⟩

/-- C3 fails on the code: with the hand [10, 20, 30, 40, 50] and the
accepted discard references 0 and -5, the discard list is [10, 10]; two
replacement cards are drawn and two cards are pushed back, but the hand
filter removes only the single card 10, so the combined cardinality of the
deck plus the hand grows by one across the turn. -/
theorem deck_conservation_violated :
    (changeCardsTurn dupDiscardInputs exTimes exState exPlayer).deck.length
        + ((changeCardsTurn dupDiscardInputs exTimes exState exPlayer).scores 1).length
      = exState.deck.length + (exState.scores 1).length + 1 := by
  decide

/-- C4 fails on the code: after the successful exchange with discard
references 0 and -5 (validated, since they deduplicate to 2 distinct
references), the recomputed hand of player 1 holds 6 cards, not 5. -/
theorem hand_size_violated :
    get_player_discard (exState.scores exPlayer.id) (dupDiscardInputs exPlayer.id)
        = Except.ok [10, 10] ∧
    ((changeCardsTurn dupDiscardInputs exTimes exState exPlayer).scores 1).length = 6 := by
  constructor
  · rfl
  · decide

theorem blindsFold_snd (blind : Int) (l : List Player) (gp : GamePlayers) (outs : List Output) :
    (l.foldl (blindsStep blind) (gp, outs)).2
      = outs ++ (l.filter (fun p => decide (p.money < blind))).map
          (fun p => Output.ev (GameEvent.deadPlayer p.id)) := by
  induction l generalizing gp outs with
  | nil => simp
  | cons p rest ih =>
    by_cases hp : p.money < blind
    · simp only [List.foldl_cons, blindsStep, if_pos hp]
      rw [ih]
      simp [hp]
    · simp only [List.foldl_cons, blindsStep, if_neg hp]
      rw [ih]
      simp [hp]

theorem blindsFold_fst (blind : Int) (l : List Player) (gp : GamePlayers) (outs : List Output) :
    (l.foldl (blindsStep blind) (gp, outs)).1.players
      = gp.players.map (fun q =>
          if q.id ∈ (l.filter (fun p => decide (p.money < blind))).map (fun p => p.id)
          then { q with active := false } else q) := by
  induction l generalizing gp outs with
  | nil => simp
  | cons p rest ih =>
    by_cases hp : p.money < blind
    · simp only [List.foldl_cons, blindsStep, if_pos hp]
      rw [ih]
      simp only [GamePlayers.remove, List.map_map]
      rw [List.filter_cons_of_pos (by simp [hp])]
      simp only [List.map_cons]
      congr 1
      funext q
      by_cases hq : q.id = p.id
      · simp [Function.comp, hq]
      · rw [Function.comp_apply, if_neg hq]
        exact if_congr (by simp [hq]) rfl rfl
    · simp only [List.foldl_cons, blindsStep, if_neg hp]
      rw [ih]
      rw [List.filter_cons_of_neg (by simp [hp])]

theorem collect_blinds_outputs (blind : Int) (gp : GamePlayers) (outs : List Output) :
    (collect_blinds blind gp outs).outputs
      = outs ++ (gp.activeList.filter (fun p => decide (p.money < blind))).map
          (fun p => Output.ev (GameEvent.deadPlayer p.id)) := by
  simp only [collect_blinds]
  by_cases hc : (gp.activeList.foldl (blindsStep blind) (gp, outs)).1.countActive < 2
  · rw [if_pos hc]
    exact blindsFold_snd blind gp.activeList gp outs
  · rw [if_neg hc]
    exact blindsFold_snd blind gp.activeList gp outs

theorem blindsFold_players (blind : Int) (gp : GamePlayers) (outs : List Output)
    (hid : (gp.players.map (fun p => p.id)).Nodup) :
    (gp.activeList.foldl (blindsStep blind) (gp, outs)).1.players
      = gp.players.map (fun q =>
          if q.active && decide (q.money < blind) then { q with active := false } else q) := by
  rw [blindsFold_fst]
  apply List.map_congr_left
  intro q hq
  by_cases hmem : q.id ∈ (gp.activeList.filter
      (fun p => decide (p.money < blind))).map (fun p => p.id)
  · rw [if_pos hmem]
    obtain ⟨r, hr, hrid⟩ := List.mem_map.1 hmem
    have hrf := List.mem_filter.1 hr
    have hrpoor : r.money < blind := by simpa using hrf.2
    have hract : r.active := by simpa using (List.mem_filter.1 hrf.1).2
    have hrmem : r ∈ gp.players := List.mem_of_mem_filter hrf.1
    have heq : r = q := List.inj_on_of_nodup_map hid hrmem hq hrid
    subst heq
    rw [if_pos (by simp [hract, hrpoor])]
  · rw [if_neg hmem]
    by_cases hq2 : (q.active && decide (q.money < blind)) = true
    · exfalso
      apply hmem
      have hact : q.active := by
        have := hq2
        simp only [Bool.and_eq_true, decide_eq_true_eq] at this
        exact this.1
      have hpoor : q.money < blind := by
        have := hq2
        simp only [Bool.and_eq_true, decide_eq_true_eq] at this
        exact this.2
      refine List.mem_map.2 ⟨q, List.mem_filter.2 ⟨List.mem_filter.2 ⟨hq, by simp [hact]⟩, by simp [hpoor]⟩, rfl⟩
    · rw [if_neg hq2]

theorem blindsFold_activeList (blind : Int) (gp : GamePlayers) (outs : List Output)
    (hid : (gp.players.map (fun p => p.id)).Nodup) :
    (gp.activeList.foldl (blindsStep blind) (gp, outs)).1.activeList
      = gp.activeList.filter (fun p => !decide (p.money < blind)) := by
  have h1 : (gp.activeList.foldl (blindsStep blind) (gp, outs)).1.activeList
      = ((gp.activeList.foldl (blindsStep blind) (gp, outs)).1.players).filter
          (fun p => p.active) := rfl
  rw [h1, blindsFold_players blind gp outs hid]
  rw [show gp.activeList = gp.players.filter (fun p => p.active) from rfl]
  rw [List.filter_map, List.filter_filter]
  have hGH : ∀ a ∈ gp.players,
      ((fun p => p.active) ∘ (fun q =>
        if q.active && decide (q.money < blind) then { q with active := false } else q)) a
      = (fun a => !decide (a.money < blind) && a.active) a := by
    intro a _
    by_cases ha : a.active
    · by_cases hm : a.money < blind
      · simp [Function.comp, ha, hm]
      · simp [Function.comp, ha, hm]
    · simp [Function.comp, ha]
  rw [List.filter_congr hGH]
  have hFid : ∀ a ∈ gp.players.filter (fun a => !decide (a.money < blind) && a.active),
      (fun q => if q.active && decide (q.money < blind) then { q with active := false } else q) a
        = (fun a => a) a := by
    intro a ha
    have h2 := (List.mem_filter.1 ha).2
    simp only [Bool.and_eq_true, Bool.not_eq_true', decide_eq_false_iff_not] at h2
    simp [h2.1]
  rw [List.map_congr_left hFid, List.map_id']

theorem blindsFold_countActive (blind : Int) (gp : GamePlayers) (outs : List Output)
    (hid : (gp.players.map (fun p => p.id)).Nodup) :
    (gp.activeList.foldl (blindsStep blind) (gp, outs)).1.countActive
      = (gp.activeList.filter (fun p => !decide (p.money < blind))).length := by
  unfold GamePlayers.countActive
  rw [blindsFold_activeList blind gp outs hid]

/-- C6: blind collection first removes every active player whose money is
strictly below the blind, dispatching one dead-player event per removal in
seating order; then, if fewer than two active players remain it fails with
the fatal GameError Not enough players (which play_hand propagates to the
caller); otherwise every remaining active player is debited exactly the
blind and the bets mapping maps exactly the remaining active player ids to
the blind amount. -/
theorem collect_blinds_characterized (blind : Int) (gp : GamePlayers) (outs : List Output)
    (hid : (gp.players.map (fun p => p.id)).Nodup) :
    collect_blinds blind gp outs =
      if (gp.activeList.filter (fun p => !decide (p.money < blind))).length < 2 then
        { players := ⟨gp.players.map (fun q =>
            if q.active && decide (q.money < blind) then { q with active := false } else q)⟩,
          outputs := outs ++ (gp.activeList.filter (fun p => decide (p.money < blind))).map
              (fun p => Output.ev (GameEvent.deadPlayer p.id)),
          bets := Except.error (GameError.gameError "Not enough players") }
      else
        { players := ⟨gp.players.map (fun q =>
            if q.active && decide (q.money < blind) then { q with active := false }
            else if q.active then { q with money := q.money - blind } else q)⟩,
          outputs := outs ++ (gp.activeList.filter (fun p => decide (p.money < blind))).map
              (fun p => Output.ev (GameEvent.deadPlayer p.id)),
          bets := Except.ok ((gp.activeList.filter (fun p => !decide (p.money < blind))).map
              (fun p => (p.id, blind))) } := by
  have hcnt := blindsFold_countActive blind gp outs hid
  have hpl := blindsFold_players blind gp outs hid
  have hact := blindsFold_activeList blind gp outs hid
  have hsnd := blindsFold_snd blind gp.activeList gp outs
  simp only [collect_blinds]
  rw [hcnt]
  by_cases hc : (gp.activeList.filter (fun p => !decide (p.money < blind))).length < 2
  · simp only [if_pos hc]
    rw [← hpl, ← hsnd]
  · simp only [if_neg hc]
    have hmap : (gp.players.map (fun q =>
        if q.active && decide (q.money < blind) then { q with active := false } else q)).map
          (fun p => if p.active then { p with money := p.money - blind } else p)
        = gp.players.map (fun q =>
            if q.active && decide (q.money < blind) then { q with active := false }
            else if q.active then { q with money := q.money - blind } else q) := by
      rw [List.map_map]
      congr 1
      funext q
      by_cases ha : q.active
      · by_cases hm : q.money < blind
        · simp [Function.comp, ha, hm]
        · simp [Function.comp, ha, hm]
      · simp [Function.comp, ha]
    rw [hpl, hmap, hact, ← hsnd]

/-- Roster used by the blind-collection witness: player 1 is active but too
poor, players 2 and 3 are active and rich, player 4 is already inactive. -/
def exBlindGp : GamePlayers :=
  ⟨[{ id := 1, money := 5, active := true },
    { id := 2, money := 50, active := true },
    { id := 3, money := 50, active := true },
    { id := 4, money := 20, active := false }]⟩

/-- Witness for C6 at a concrete roster with blind 10. -/
theorem collect_blinds_characterized_witness :
    (exBlindGp.players.map (fun p => p.id)).Nodup ∧
    collect_blinds 10 exBlindGp [] =
      if (exBlindGp.activeList.filter (fun p => !decide (p.money < 10))).length < 2 then
        { players := ⟨exBlindGp.players.map (fun q =>
            if q.active && decide (q.money < 10) then { q with active := false } else q)⟩,
          outputs := [] ++ (exBlindGp.activeList.filter (fun p => decide (p.money < 10))).map
              (fun p => Output.ev (GameEvent.deadPlayer p.id)),
          bets := Except.error (GameError.gameError "Not enough players") }
      else
        { players := ⟨exBlindGp.players.map (fun q =>
            if q.active && decide (q.money < 10) then { q with active := false }
            else if q.active then { q with money := q.money - 10 } else q)⟩,
          outputs := [] ++ (exBlindGp.activeList.filter (fun p => decide (p.money < 10))).map
              (fun p => Output.ev (GameEvent.deadPlayer p.id)),
          bets := Except.ok ((exBlindGp.activeList.filter (fun p => !decide (p.money < 10))).map
              (fun p => (p.id, 10))) } :=
  ⟨by decide, collect_blinds_characterized 10 exBlindGp [] (by decide)⟩

theorem countOut_zero {l : List Output} {x : Output} (h : ∀ o ∈ l, o ≠ x) : countOut l x = 0 := by
  rw [countOut, List.countP_eq_zero]
  intro a ha
  simpa using h a ha

theorem countOut_append (l1 l2 : List Output) (x : Output) :
    countOut (l1 ++ l2) x = countOut l1 x + countOut l2 x := by
  simp [countOut]

theorem assign_cards_outputs_benign (n dealerId : Nat) (st : EngineState) :
    ∃ d, (assign_cards n dealerId st).outputs = st.outputs ++ d ∧ ∀ o ∈ d, benignOut o := by
  unfold assign_cards
  generalize st.players.round dealerId = l
  induction l generalizing st with
  | nil => exact ⟨[], by simp, by simp⟩
  | cons p rest ih =>
    obtain ⟨d, hd, hb⟩ := ih
      { st with
        deck := st.deck.drop n,
        scores := fun j => if j = p.id then st.deck.take n else st.scores j,
        outputs := st.outputs ++ [Output.send p.id (PlayerMsg.handUpdate (st.deck.take n))] }
    refine ⟨Output.send p.id (PlayerMsg.handUpdate (st.deck.take n)) :: d, ?_, ?_⟩
    · simp only [List.foldl_cons]
      rw [hd]
      simp
    · intro o ho
      rcases List.mem_cons.1 ho with rfl | ho
      · simp [benignOut]
      · exact hb o ho

theorem handBody_outputs_benign (C : Collaborators) (inputs : Nat → RecvResult)
    (times : Nat → Nat) (dealerId : Nat) (st : EngineState) :
    ∃ d, (handBody C inputs times dealerId st).outputs = st.outputs ++ d ∧
      ∀ o ∈ d, benignOut o := by
  obtain ⟨d1, h1, hb1⟩ := assign_cards_outputs_benign 5 dealerId st
  obtain ⟨d2, h2, hb2⟩ := change_cards_round_outputs_benign inputs times dealerId
    { assign_cards 5 dealerId st with players := C.betRound1 (assign_cards 5 dealerId st).players }
  have hs3 : (change_cards_round inputs times dealerId
      { assign_cards 5 dealerId st with
        players := C.betRound1 (assign_cards 5 dealerId st).players }).outputs
      = st.outputs ++ (d1 ++ d2) := by
    rw [h2]
    show (assign_cards 5 dealerId st).outputs ++ d2 = _
    rw [h1, List.append_assoc]
  have hbb : ∀ o ∈ d1 ++ d2, benignOut o := by
    intro o ho
    rcases List.mem_append.1 ho with hm | hm
    exacts [hb1 o hm, hb2 o hm]
  simp only [handBody]
  split
  · exact ⟨d1, h1, hb1⟩
  split
  · exact ⟨d1, h1, hb1⟩
  split
  · exact ⟨d1 ++ d2, hs3, hbb⟩
  split
  · exact ⟨d1 ++ d2, hs3, hbb⟩
  · exact ⟨d1 ++ d2, hs3, hbb⟩

theorem finishHand_outputs (stB : EngineState) :
    (finishHand stB).outputs
      = (stB.outputs ++ (if 1 < stB.players.countActive
            then [Output.ev GameEvent.showdown] else []))
        ++ [Output.ev GameEvent.winnerDesignation, Output.ev GameEvent.gameOver] := by
  unfold finishHand
  by_cases c : 1 < stB.players.countActive
  · simp [c]
  · simp [c]

theorem finishHand_players (stB : EngineState) : (finishHand stB).players = stB.players := by
  unfold finishHand
  by_cases c : 1 < stB.players.countActive
  · simp [c]
  · simp [c]

theorem afterBlinds_outputs_benign (gameId dealerId : Nat) (deck0 : List Card)
    (blind : Int) (gp : GamePlayers) (blindBets : List (Nat × Int)) :
    ∀ o ∈ (afterBlinds gameId dealerId deck0 (collect_blinds blind gp []) blindBets).outputs,
      benignOut o := by
  intro o ho
  simp only [afterBlinds] at ho
  rcases List.mem_append.1 ho with hm | hm
  · rw [collect_blinds_outputs, List.nil_append] at hm
    obtain ⟨r, _, rfl⟩ := List.mem_map.1 hm
    simp [benignOut]
  · rcases List.mem_cons.1 hm with rfl | hm
    · simp [benignOut]
    · rcases List.mem_cons.1 hm with rfl | hm
      · simp [benignOut]
      · cases hm

theorem drop_last_two (M : List Output) (a b : Output) :
    (M ++ [a, b]).drop ((M ++ [a, b]).length - 2) = [a, b] := by
  have hlen : (M ++ [a, b]).length - 2 = M.length := by
    simp [List.length_append]
  rw [hlen]
  exact List.drop_left M [a, b]

/-- C2: whenever blind collection succeeds (play_hand returns normally,
whether by early termination at a checkpoint, by the money guard before
the final bet, or by running all phases), the payout marker (winner
detection over the pots) occurs exactly once in the trace and the
game-over event exactly once; they are the final two entries in that
order (game-over after payout), and the showdown marker occurs exactly
once when more than one player remains active at hand end and not at all
otherwise. -/
theorem play_hand_payout_once
    (C : Collaborators) (blind : Int) (inputs : Nat → RecvResult) (times : Nat → Nat)
    (gameId dealerId : Nat) (gp : GamePlayers) (deck0 : List Card)
    (h : exceptOk (play_hand C blind inputs times gameId dealerId gp deck0) = true) :
    countOut (resultOutputs (play_hand C blind inputs times gameId dealerId gp deck0))
        (Output.ev GameEvent.winnerDesignation) = 1 ∧
    countOut (resultOutputs (play_hand C blind inputs times gameId dealerId gp deck0))
        (Output.ev GameEvent.gameOver) = 1 ∧
    countOut (resultOutputs (play_hand C blind inputs times gameId dealerId gp deck0))
        (Output.ev GameEvent.showdown)
      = (if 1 < resultActive (play_hand C blind inputs times gameId dealerId gp deck0)
         then 1 else 0) ∧
    (resultOutputs (play_hand C blind inputs times gameId dealerId gp deck0)).drop
        ((resultOutputs (play_hand C blind inputs times gameId dealerId gp deck0)).length - 2)
      = [Output.ev GameEvent.winnerDesignation, Output.ev GameEvent.gameOver] := by
  cases hbr : (collect_blinds blind gp.reset []).bets with
  | error e => simp [play_hand, hbr, exceptOk] at h
  | ok blindBets =>
    have hph : play_hand C blind inputs times gameId dealerId gp deck0
        = Except.ok (finishHand (handBody C inputs times dealerId
            (afterBlinds gameId dealerId deck0 (collect_blinds blind gp.reset [])
              blindBets))) := by
      simp only [play_hand, hbr]
    rw [hph]
    set stA := afterBlinds gameId dealerId deck0 (collect_blinds blind gp.reset []) blindBets
      with hstA
    set stB := handBody C inputs times dealerId stA with hstB
    obtain ⟨dB, hB, hbB⟩ := handBody_outputs_benign C inputs times dealerId stA
    rw [← hstB] at hB
    have hAllB : ∀ o ∈ stB.outputs, benignOut o := by
      rw [hB]
      intro o ho
      rcases List.mem_append.1 ho with hm | hm
      · exact afterBlinds_outputs_benign gameId dealerId deck0 blind gp.reset blindBets o
          (by rw [hstA] at hm; exact hm)
      · exact hbB o hm
    simp only [resultOutputs, resultActive, finishHand_players, finishHand_outputs]
    set sd := if 1 < stB.players.countActive then [Output.ev GameEvent.showdown] else []
      with hsd
    have hzw : countOut stB.outputs (Output.ev GameEvent.winnerDesignation) = 0 :=
      countOut_zero (fun o ho => (hAllB o ho).2.1)
    have hzg : countOut stB.outputs (Output.ev GameEvent.gameOver) = 0 :=
      countOut_zero (fun o ho => (hAllB o ho).2.2)
    have hzs : countOut stB.outputs (Output.ev GameEvent.showdown) = 0 :=
      countOut_zero (fun o ho => (hAllB o ho).1)
    refine ⟨?_, ?_, ?_, drop_last_two (stB.outputs ++ sd) _ _⟩
    · rw [countOut_append, countOut_append, hzw]
      have h2 : countOut sd (Output.ev GameEvent.winnerDesignation) = 0 := by
        rw [hsd]
        by_cases c : 1 < stB.players.countActive
        · simp only [if_pos c]; decide
        · simp only [if_neg c]; decide
      rw [h2]
      decide
    · rw [countOut_append, countOut_append, hzg]
      have h2 : countOut sd (Output.ev GameEvent.gameOver) = 0 := by
        rw [hsd]
        by_cases c : 1 < stB.players.countActive
        · simp only [if_pos c]; decide
        · simp only [if_neg c]; decide
      rw [h2]
      decide
    · rw [countOut_append, countOut_append, hzs]
      by_cases c : 1 < stB.players.countActive
      · rw [hsd]
        simp only [if_pos c]
        decide
      · rw [hsd]
        simp only [if_neg c]
        decide

/-- The identity bet-round collaborators used by the play_hand witness. -/
def exCollab : Collaborators := ⟨fun g => g, fun g => g⟩

/-- A 12-card deck for the play_hand witness. -/
def exDeck12 : List Card := [300, 301, 302, 303, 304, 305, 306, 307, 308, 309, 310, 311]

/-- Witness for C2: a complete two-player hand with blind 10, empty
discards and identity bet rounds reaches payout once, game-over once after
it, and a single showdown (both players still active). -/
theorem play_hand_payout_once_witness :
    exceptOk (play_hand exCollab 10 exEmptyInputs exTimes 7 1 ⟨[exPlayer, exPlayer2]⟩ exDeck12)
        = true ∧
    (countOut (resultOutputs (play_hand exCollab 10 exEmptyInputs exTimes 7 1
          ⟨[exPlayer, exPlayer2]⟩ exDeck12)) (Output.ev GameEvent.winnerDesignation) = 1 ∧
      countOut (resultOutputs (play_hand exCollab 10 exEmptyInputs exTimes 7 1
          ⟨[exPlayer, exPlayer2]⟩ exDeck12)) (Output.ev GameEvent.gameOver) = 1 ∧
      countOut (resultOutputs (play_hand exCollab 10 exEmptyInputs exTimes 7 1
          ⟨[exPlayer, exPlayer2]⟩ exDeck12)) (Output.ev GameEvent.showdown)
        = (if 1 < resultActive (play_hand exCollab 10 exEmptyInputs exTimes 7 1
              ⟨[exPlayer, exPlayer2]⟩ exDeck12) then 1 else 0) ∧
      (resultOutputs (play_hand exCollab 10 exEmptyInputs exTimes 7 1
          ⟨[exPlayer, exPlayer2]⟩ exDeck12)).drop
          ((resultOutputs (play_hand exCollab 10 exEmptyInputs exTimes 7 1
              ⟨[exPlayer, exPlayer2]⟩ exDeck12)).length - 2)
        = [Output.ev GameEvent.winnerDesignation, Output.ev GameEvent.gameOver]) :=
  ⟨by decide, play_hand_payout_once exCollab 10 exEmptyInputs exTimes 7 1
      ⟨[exPlayer, exPlayer2]⟩ exDeck12 (by decide)⟩
